import Mathlib

/-!
Shallow embedding of the RelatorioFinanceiro front-end dashboard logic
(`src/components/FinanceDashboard.tsx`, duplicated in `src/unnamed/part_002`,
and the API-client variants in `src/api/transactionsApi.ts` /
`src/unnamed/part_000` / `src/unnamed/part_001`).

The component state is a record of the React `useState` hooks; the pure
view-derivation helpers (`getFilteredTransactions`, `getCategories`,
`renderTransactionsList` truncation, `renderFilters` visibility,
`getUserIdFromUrl`) are translated as Lean functions; the effectful
handlers (`loadData`, `handleRemoveTransaction`) are translated as state
transformers parameterised by the outcome of the awaited network call, and
return the produced observable effects (console diagnostics and `alert`
notifications) alongside the new state.

JavaScript semantics that matter here and are modelled explicitly:
  * `Array.prototype.sort` sorts IN PLACE and returns the same array.
    `getFilteredTransactions` starts with `let filtered = transactions`
    (an alias of the state array) and reassigns `filtered` only when one
    of the three conditional `.filter` calls executes (each returning a
    fresh array).  Hence the final `.sort` mutates the stored state array
    exactly when no filter step applied.  `transactionsAfterGetFiltered`
    captures the content of the stored array after one evaluation.
  * `sort` with comparator `(a, b) => tb - ta` is a stable descending sort
    by timestamp (ECMAScript sort is stable); it is modelled by the stable
    `List.mergeSort` with `le a b := b.time ≤ a.time`.
  * `new Date(x).getTime()` on the stored `createdAt` string is abstracted
    by storing the resulting epoch value directly (`createdAt : Nat`).
  * `if (searchTerm)` / `if (selectedCategory)` test string truthiness:
    the empty string is falsy.
  * `params.get('userId') || 'default_user'` yields the fallback both when
    the parameter is absent (`null`) and when it is the empty string.
  * `new Set(xs)` iterates in insertion order keeping first occurrences.
-/

namespace RelatorioFinanceiro

/-- The `type` field of a transaction: `'income' | 'expense'`. -/
inductive TType where
  | income
  | expense
deriving DecidableEq, Repr

/-- The `ViewMode` union type:
`'dashboard' | 'expenses' | 'income' | 'transactions'`. -/
inductive ViewMode where
  | dashboard
  | expenses
  | income
  | transactions
deriving DecidableEq, Repr

/-- The `Transaction` interface.  `createdAt` stores the epoch value
`new Date(t.createdAt).getTime()` (the only use the component makes of the
`createdAt` string); `amount` is kept abstract as an integer. -/
structure Transaction where
  _id : String
  type : TType
  amount : Int
  description : String
  category : String
  createdAt : Nat
  userId : String
deriving DecidableEq, Repr

/-- The `Summary` interface.  Treated as an opaque snapshot by the
component (only displayed), so the category map is a plain list of pairs. -/
structure Summary where
  totalIncome : Int
  totalExpenses : Int
  balance : Int
  categorySummary : List (String × Int)
  transactionCount : Nat
deriving DecidableEq, Repr

/-- The component state: one field per `useState` hook of
`FinanceDashboard`, plus the `userId` computed at render time. -/
structure DashState where
  transactions : List Transaction
  summary : Option Summary
  loading : Bool
  currentView : ViewMode
  searchTerm : String
  selectedCategory : String
  showBalance : Bool
  sidebarOpen : Bool
deriving DecidableEq, Repr

/-- JavaScript `s.includes(sub)`: `sub` occurs contiguously in `s`. -/
def jsIncludes (s sub : String) : Bool :=
  decide (sub.data <:+: s.data)

/-- JavaScript `s.toLowerCase()`: character-wise lowercasing. -/
def jsToLower (s : String) : String :=
  ⟨s.data.map Char.toLower⟩

/-- The search predicate of `getFilteredTransactions`:
`t.description.toLowerCase().includes(searchTerm.toLowerCase()) ||
 t.category.toLowerCase().includes(searchTerm.toLowerCase())`. -/
def matchesSearch (searchTerm : String) (t : Transaction) : Bool :=
  jsIncludes (jsToLower t.description) (jsToLower searchTerm) ||
    jsIncludes (jsToLower t.category) (jsToLower searchTerm)

/-- Stage 1 of `getFilteredTransactions`: the two `currentView` branches
(`expenses` keeps `t.type === 'expense'`, `income` keeps
`t.type === 'income'`, any other view leaves the list untouched). -/
def filterByView (currentView : ViewMode) (ts : List Transaction) :
    List Transaction :=
  if currentView = ViewMode.expenses then
    ts.filter fun t => decide (t.type = TType.expense)
  else if currentView = ViewMode.income then
    ts.filter fun t => decide (t.type = TType.income)
  else ts

/-- Stage 2 of `getFilteredTransactions`: `if (searchTerm) filtered =
filtered.filter(...)`.  The empty string is falsy, so no filtering then. -/
def searchFilter (searchTerm : String) (ts : List Transaction) :
    List Transaction :=
  if searchTerm = "" then ts else ts.filter (matchesSearch searchTerm)

/-- Stage 3 of `getFilteredTransactions`: `if (selectedCategory) filtered =
filtered.filter(t => t.category === selectedCategory)`. -/
def categoryFilter (selectedCategory : String) (ts : List Transaction) :
    List Transaction :=
  if selectedCategory = "" then ts
  else ts.filter fun t => decide (t.category = selectedCategory)

/-- The comparator `(a, b) => new Date(b.createdAt).getTime() -
new Date(a.createdAt).getTime()` as an "a may precede b" relation: the
comparator is `≤ 0` exactly when the time of `b` is `≤` the time of `a`. -/
def createdAtDesc (a b : Transaction) : Prop :=
  b.createdAt ≤ a.createdAt

instance : DecidableRel createdAtDesc := fun a b =>
  Nat.decLe b.createdAt a.createdAt

instance : IsTrans Transaction createdAtDesc :=
  ⟨fun _ _ _ h1 h2 => le_trans h2 h1⟩

instance : IsTotal Transaction createdAtDesc :=
  ⟨fun a b => le_total b.createdAt a.createdAt⟩

/-- Stage 4 of `getFilteredTransactions`: the final sort
(`filtered.sort((a, b) => tb - ta)`, a stable descending sort by creation
time — ECMAScript `sort` is stable).  A stable sort for a total preorder
comparator has a unique result, so the stable `List.insertionSort` is an
exact model of it. -/
def sortByCreatedAtDesc (ts : List Transaction) : List Transaction :=
  ts.insertionSort createdAtDesc

/-- The value RETURNED by `getFilteredTransactions` in state `s`. -/
def getFilteredTransactions (s : DashState) : List Transaction :=
  sortByCreatedAtDesc
    (categoryFilter s.selectedCategory
      (searchFilter s.searchTerm
        (filterByView s.currentView s.transactions)))

/-- Whether one of the three conditional `.filter` calls inside
`getFilteredTransactions` executes in state `s` (each such call rebinds
`filtered` to a fresh array, breaking the alias to the state array). -/
def filterStepApplied (s : DashState) : Prop :=
  s.currentView = ViewMode.expenses ∨ s.currentView = ViewMode.income ∨
    s.searchTerm ≠ "" ∨ s.selectedCategory ≠ ""

instance (s : DashState) : Decidable (filterStepApplied s) := by
  unfold filterStepApplied; infer_instance

/-- Content of the STORED `transactions` state array after one evaluation
of `getFilteredTransactions`: when no `.filter` call executed, `filtered`
still aliases the state array and the in-place `.sort` reorders it;
otherwise the sort mutates a fresh array and the stored one is untouched. -/
def transactionsAfterGetFiltered (s : DashState) : List Transaction :=
  if filterStepApplied s then s.transactions else getFilteredTransactions s

/-- The component state after one evaluation of `getFilteredTransactions`
(only the stored `transactions` array can have been mutated). -/
def stateAfterGetFiltered (s : DashState) : DashState :=
  { s with transactions := transactionsAfterGetFiltered s }

/-- First-occurrence deduplication, the behaviour of
`[...new Set(xs)]` (a `Set` iterates in insertion order). -/
def jsSetDedup : List String → List String
  | [] => []
  | a :: l => a :: (jsSetDedup l).filter fun b => decide (b ≠ a)

/-- Lexicographic code-unit comparison of character lists: the order the
default JavaScript `sort()` uses on strings ("a may precede b"). -/
def jsLeCharList : List Char → List Char → Bool
  | [], _ => true
  | _ :: _, [] => false
  | a :: as, b :: bs =>
      if a.toNat < b.toNat then true
      else if b.toNat < a.toNat then false
      else jsLeCharList as bs

/-- The default-`sort()` ascending lexicographic order on strings. -/
def strLe (a b : String) : Prop :=
  jsLeCharList a.data b.data = true

instance : DecidableRel strLe := fun a b =>
  instDecidableEqBool (jsLeCharList a.data b.data) true

/-- Function `getCategories`: `[...new Set(transactions.map(t =>
t.category))]` followed by the default `sort()` (ascending
lexicographic comparison of the strings). -/
def getCategories (transactions : List Transaction) : List String :=
  (jsSetDedup (transactions.map fun t => t.category)).insertionSort strLe

/-- The transaction rows `renderTransactionsList` displays:
`filteredTransactions.slice(0, currentView === 'dashboard' ? 5 :
undefined)` (and `slice(0, undefined)` is the whole array). -/
def displayedTransactions (s : DashState) : List Transaction :=
  let filteredTransactions := getFilteredTransactions s
  if s.currentView = ViewMode.dashboard then filteredTransactions.take 5
  else filteredTransactions

/-- Whether `renderFilters` renders the search/category controls: it
returns `null` exactly on the `dashboard` view. -/
def filtersRendered (s : DashState) : Bool :=
  decide (s.currentView ≠ ViewMode.dashboard)

/-- Outcome of the awaited `fetchTransactions(userId)` call: the parsed
`{transactions, summary}` payload, or a rejection (transport / HTTP
error). -/
inductive FetchResult where
  | ok (transactions : List Transaction) (summary : Summary)
  | err
deriving DecidableEq, Repr

/-- Outcome of the awaited `deleteTransaction(userId, transactionId)`
call: fulfilled, or rejected (transport / HTTP error). -/
inductive DeleteResult where
  | ok
  | err
deriving DecidableEq, Repr

/-- Observable side effects of a handler run: number of
`console.error` diagnostics and the `alert` notifications shown. -/
structure Effects where
  consoleErrors : Nat
  alerts : List String
deriving DecidableEq, Repr

/-- No observable effects. -/
def noEffects : Effects := { consoleErrors := 0, alerts := [] }

/-- Function `loadData` (part_002 variant, the one wired to the API client):
`setLoading(true)`, await `fetchTransactions(userId)`; on success store
the payload, on rejection `console.error` and clear both the list and the
summary; `finally setLoading(false)`.  No `alert` on either path. -/
def loadData (s : DashState) (r : FetchResult) : DashState × Effects :=
  match r with
  | FetchResult.ok ts sm =>
      ({ s with loading := false, transactions := ts, summary := some sm },
        noEffects)
  | FetchResult.err =>
      ({ s with loading := false, transactions := [], summary := none },
        { consoleErrors := 1, alerts := [] })

/-- Handler `handleRemoveTransaction`: `window.confirm`; if confirmed, await
`deleteTransaction`; on success call `loadData()` (refetch, outcome
`refetch`) and `alert` success; on rejection `console.error`, `alert`
failure, and touch no state.  If not confirmed, do nothing. -/
def handleRemoveTransaction (s : DashState) (confirmed : Bool)
    (dr : DeleteResult) (refetch : FetchResult) : DashState × Effects :=
  if confirmed then
    match dr with
    | DeleteResult.ok =>
        let res := loadData s refetch
        (res.1, { res.2 with
          alerts := res.2.alerts ++ ["Transação excluída com sucesso!"] })
    | DeleteResult.err =>
        (s, { consoleErrors := 1, alerts := ["Erro ao excluir transação."] })
  else (s, noEffects)

/-- Function `getUserIdFromUrl`: `params.get('userId') || 'default_user'`.
`userIdParam` is what `URLSearchParams.get` returns (`none` models JS
`null` for an absent parameter).  JS `||` falls through to the fallback on
`null` and on the falsy empty string. -/
def getUserIdFromUrl (userIdParam : Option String) : String :=
  match userIdParam with
  | none => "default_user"
  | some v => if v = "" then "default_user" else v

/-- The three top-level screens `FinanceDashboard` can return. -/
inductive Screen where
  | loadingScreen
  | accessDenied
  | dashboardScreen
deriving DecidableEq, Repr

/-- The top-level early returns of `FinanceDashboard`, in source order:
`if (loading) return <spinner>`, then `if (!userId) return <access
denied>`, else the dashboard. -/
def renderedScreen (loading : Bool) (userId : String) : Screen :=
  if loading then Screen.loadingScreen
  else if userId = "" then Screen.accessDenied
  else Screen.dashboardScreen

/-! ### Concrete data for witnesses and counterexamples -/

/-- A concrete transaction builder: id and timestamp `i`. -/
def sampleTx (i : Nat) (k : TType) (d c : String) : Transaction :=
  { _id := toString i, type := k, amount := 1, description := d,
    category := c, createdAt := i, userId := "user1" }

/-- A concrete loaded state on the dashboard view with no active filters. -/
def baseState (ts : List Transaction) : DashState :=
  { transactions := ts, summary := none, loading := false,
    currentView := ViewMode.dashboard, searchTerm := "",
    selectedCategory := "", showBalance := true, sidebarOpen := false }

/-! ### Helper lemmas (shared across the claim theorems) -/

theorem jsLeCharList_trans : ∀ as bs cs : List Char,
    jsLeCharList as bs = true → jsLeCharList bs cs = true →
      jsLeCharList as cs = true := by
  intro as
  induction as with
  | nil => intro bs cs _ _; rfl
  | cons a as ih =>
      intro bs cs h1 h2
      cases bs with
      | nil => simp [jsLeCharList] at h1
      | cons b bs =>
          cases cs with
          | nil => simp [jsLeCharList] at h2
          | cons c cs =>
              simp only [jsLeCharList] at h1 h2 ⊢
              split_ifs at h1 h2 ⊢ <;> try omega
              all_goals simp_all
              exact ih bs cs h1 h2

theorem jsLeCharList_total : ∀ as bs : List Char,
    jsLeCharList as bs = true ∨ jsLeCharList bs as = true := by
  intro as
  induction as with
  | nil => intro bs; exact Or.inl rfl
  | cons a as ih =>
      intro bs
      cases bs with
      | nil => exact Or.inr rfl
      | cons b bs =>
          simp only [jsLeCharList]
          by_cases hab : a.toNat < b.toNat
          · simp [hab]
          · by_cases hba : b.toNat < a.toNat
            · simp [hab, hba]
            · simpa [hab, hba] using ih bs

instance : IsTrans String strLe :=
  ⟨fun a b c h1 h2 => jsLeCharList_trans a.data b.data c.data h1 h2⟩

instance : IsTotal String strLe :=
  ⟨fun a b => jsLeCharList_total a.data b.data⟩

theorem mem_sortByCreatedAtDesc {t : Transaction} {ts : List Transaction} :
    t ∈ sortByCreatedAtDesc ts ↔ t ∈ ts :=
  (List.perm_insertionSort createdAtDesc ts).mem_iff

theorem matchesSearch_empty (t : Transaction) : matchesSearch "" t = true := by
  have h1 : (jsToLower "").data = ([] : List Char) := rfl
  simp only [matchesSearch, jsIncludes, h1, Bool.or_eq_true,
    decide_eq_true_eq]
  exact Or.inl List.nil_infix

theorem mem_searchFilter {t : Transaction} {term : String}
    {ts : List Transaction} :
    t ∈ searchFilter term ts ↔ t ∈ ts ∧ matchesSearch term t = true := by
  unfold searchFilter
  by_cases h : term = ""
  · subst h
    simp [matchesSearch_empty]
  · simp [h, List.mem_filter]

theorem mem_categoryFilter {t : Transaction} {sel : String}
    {ts : List Transaction} :
    t ∈ categoryFilter sel ts ↔ t ∈ ts ∧ (sel = "" ∨ t.category = sel) := by
  unfold categoryFilter
  by_cases h : sel = ""
  · simp [h]
  · simp [h, List.mem_filter]

theorem filterByView_eq_self {v : ViewMode}
    (hv : v = ViewMode.dashboard ∨ v = ViewMode.transactions)
    (ts : List Transaction) : filterByView v ts = ts := by
  rcases hv with h | h <;> subst h <;> rfl

theorem mem_filterByView {t : Transaction} {v : ViewMode}
    {ts : List Transaction} (h : t ∈ filterByView v ts) :
    t ∈ ts ∧ (v = ViewMode.expenses → t.type = TType.expense) ∧
      (v = ViewMode.income → t.type = TType.income) := by
  cases v <;> simp_all [filterByView, List.mem_filter]

theorem searchFilter_sublist (term : String) (ts : List Transaction) :
    (searchFilter term ts).Sublist ts := by
  unfold searchFilter
  split
  · exact List.Sublist.refl ts
  · exact List.filter_sublist ts

theorem categoryFilter_sublist (sel : String) (ts : List Transaction) :
    (categoryFilter sel ts).Sublist ts := by
  unfold categoryFilter
  split
  · exact List.Sublist.refl ts
  · exact List.filter_sublist ts

theorem filterByView_sublist (v : ViewMode) (ts : List Transaction) :
    (filterByView v ts).Sublist ts := by
  unfold filterByView
  split
  · exact List.filter_sublist ts
  · split
    · exact List.filter_sublist ts
    · exact List.Sublist.refl ts

theorem pairwise_sortByCreatedAtDesc (ts : List Transaction) :
    (sortByCreatedAtDesc ts).Pairwise fun a b => b.createdAt ≤ a.createdAt :=
  List.sorted_insertionSort createdAtDesc ts

theorem sortByCreatedAtDesc_idem (ts : List Transaction) :
    sortByCreatedAtDesc (sortByCreatedAtDesc ts) = sortByCreatedAtDesc ts :=
  (List.sorted_insertionSort createdAtDesc ts).insertionSort_eq

theorem filter_sortByCreatedAtDesc (ts : List Transaction) (v : Nat) :
    (sortByCreatedAtDesc ts).filter (fun t => decide (t.createdAt = v)) =
      ts.filter (fun t => decide (t.createdAt = v)) := by
  have hall : ∀ a ∈ ts.filter (fun t => decide (t.createdAt = v)),
      ∀ b ∈ ts.filter (fun t => decide (t.createdAt = v)),
        createdAtDesc a b := by
    intro a ha b hb
    have ha2 := List.of_mem_filter ha
    have hb2 := List.of_mem_filter hb
    simp only [decide_eq_true_eq] at ha2 hb2
    simp [createdAtDesc, ha2, hb2]
  have hpw := List.pairwise_of_forall_mem_list hall
  have hsub : (ts.filter (fun t => decide (t.createdAt = v))).Sublist
      (sortByCreatedAtDesc ts) :=
    List.sublist_insertionSort hpw (List.filter_sublist ts)
  have hsub2 := hsub.filter (fun t => decide (t.createdAt = v))
  have hself : (ts.filter (fun t => decide (t.createdAt = v))).filter
      (fun t => decide (t.createdAt = v)) =
        ts.filter (fun t => decide (t.createdAt = v)) := by
    apply List.filter_eq_self.mpr
    intro a ha
    rw [List.mem_filter] at ha
    exact ha.2
  rw [hself] at hsub2
  have hperm := (List.perm_insertionSort createdAtDesc ts).filter
    (fun t => decide (t.createdAt = v))
  exact (hsub2.eq_of_length (hperm.length_eq.symm)).symm

theorem searchFilter_empty (ts : List Transaction) : searchFilter "" ts = ts := by
  simp [searchFilter]

theorem categoryFilter_empty (ts : List Transaction) :
    categoryFilter "" ts = ts := by
  simp [categoryFilter]

theorem viewMode_not_filtering {v : ViewMode} (h1 : v ≠ ViewMode.expenses)
    (h2 : v ≠ ViewMode.income) :
    v = ViewMode.dashboard ∨ v = ViewMode.transactions := by
  cases v <;> simp_all

theorem getFilteredTransactions_no_filter (s : DashState)
    (h : ¬ filterStepApplied s) :
    getFilteredTransactions s = sortByCreatedAtDesc s.transactions := by
  unfold filterStepApplied at h
  push_neg at h
  obtain ⟨h1, h2, h3, h4⟩ := h
  unfold getFilteredTransactions
  rw [h3, h4, searchFilter_empty, categoryFilter_empty,
    filterByView_eq_self (viewMode_not_filtering h1 h2)]

theorem jsSetDedup_nodup (l : List String) : (jsSetDedup l).Nodup := by
  induction l with
  | nil => simp [jsSetDedup]
  | cons a l ih =>
      rw [jsSetDedup, List.nodup_cons]
      constructor
      · intro hmem
        have h := List.of_mem_filter hmem
        simp at h
      · exact ih.filter _

theorem mem_jsSetDedup {x : String} {l : List String} :
    x ∈ jsSetDedup l ↔ x ∈ l := by
  induction l with
  | nil => simp [jsSetDedup]
  | cons a l ih =>
      simp only [jsSetDedup, List.mem_cons, List.mem_filter, ih,
        decide_eq_true_eq]
      by_cases hx : x = a
      · simp [hx]
      · simp [hx]

/-! ### Claim theorems -/

/-- C1: the claim as stated is FALSE.  On the `transactions` (or
`dashboard`) view with empty search term and no selected category, no
`.filter` call executes, `filtered` still aliases the state array, and the
in-place `.sort` reorders the stored transaction list: starting from two
transactions in ascending timestamp order, one evaluation of
`getFilteredTransactions` leaves the stored list in descending order. -/
theorem C1_counterexample :
    transactionsAfterGetFiltered
        (baseState [sampleTx 0 TType.expense "Aluguel" "Moradia",
          sampleTx 1 TType.income "Salário" "Trabalho"]) ≠
      (baseState [sampleTx 0 TType.expense "Aluguel" "Moradia",
        sampleTx 1 TType.income "Salário" "Trabalho"]).transactions := by
  decide

/-- C1 (amended): evaluating `getFilteredTransactions` never changes WHICH
transactions are stored (the stored list after evaluation is a permutation
of the one before), and re-evaluating in the resulting state returns the
same derived list; the stored list is unchanged in the same order whenever
at least one filter step applies, and is reordered into the derived
(sorted) order when none does. -/
theorem C1_amended_frame (s : DashState) :
    (transactionsAfterGetFiltered s).Perm s.transactions ∧
    getFilteredTransactions (stateAfterGetFiltered s) =
      getFilteredTransactions s ∧
    (filterStepApplied s →
      transactionsAfterGetFiltered s = s.transactions) ∧
    (¬ filterStepApplied s →
      transactionsAfterGetFiltered s = sortByCreatedAtDesc s.transactions) := by
  by_cases h : filterStepApplied s
  · have hafter : transactionsAfterGetFiltered s = s.transactions := by
      simp [transactionsAfterGetFiltered, h]
    have hstate : stateAfterGetFiltered s = s := by
      cases s
      simp_all [stateAfterGetFiltered]
    refine ⟨by rw [hafter], by rw [hstate], fun _ => hafter, fun h2 => absurd h h2⟩
  · have hafter : transactionsAfterGetFiltered s =
        sortByCreatedAtDesc s.transactions := by
      simp [transactionsAfterGetFiltered, h,
        getFilteredTransactions_no_filter s h]
    have hsame : ¬ filterStepApplied (stateAfterGetFiltered s) := h
    refine ⟨?_, ?_, fun h2 => absurd h2 h, fun _ => hafter⟩
    · rw [hafter]
      exact List.perm_insertionSort createdAtDesc s.transactions
    · rw [getFilteredTransactions_no_filter _ hsame,
        getFilteredTransactions_no_filter s h]
      show sortByCreatedAtDesc (transactionsAfterGetFiltered s) = _
      rw [hafter, sortByCreatedAtDesc_idem]

/-- C1 witness: with the `expenses` view active a filter step applies, and
the stored transaction list is untouched by the evaluation. -/
theorem C1_witness :
    filterStepApplied
        { baseState [sampleTx 0 TType.expense "Aluguel" "Moradia"] with
          currentView := ViewMode.expenses } ∧
      transactionsAfterGetFiltered
          { baseState [sampleTx 0 TType.expense "Aluguel" "Moradia"] with
            currentView := ViewMode.expenses } =
        ({ baseState [sampleTx 0 TType.expense "Aluguel" "Moradia"] with
          currentView := ViewMode.expenses } : DashState).transactions :=
  ⟨Or.inl rfl,
    (C1_amended_frame
      { baseState [sampleTx 0 TType.expense "Aluguel" "Moradia"] with
        currentView := ViewMode.expenses }).2.2.1 (Or.inl rfl)⟩

/-- C2: on the `expenses` view every derived transaction has kind expense;
on the `income` view every derived transaction has kind income; on the
`transactions` and `dashboard` views no kind-based filter is applied — the
full stored list is passed to the search and category filters. -/
theorem C2_view_filtering (s : DashState) :
    (s.currentView = ViewMode.expenses →
      ∀ t ∈ getFilteredTransactions s, t.type = TType.expense) ∧
    (s.currentView = ViewMode.income →
      ∀ t ∈ getFilteredTransactions s, t.type = TType.income) ∧
    ((s.currentView = ViewMode.transactions ∨
        s.currentView = ViewMode.dashboard) →
      getFilteredTransactions s =
        sortByCreatedAtDesc (categoryFilter s.selectedCategory
          (searchFilter s.searchTerm s.transactions))) := by
  refine ⟨?_, ?_, ?_⟩
  · intro hv t ht
    rw [getFilteredTransactions, mem_sortByCreatedAtDesc] at ht
    have h2 := (mem_categoryFilter.mp ht).1
    have h3 := (mem_searchFilter.mp h2).1
    exact (mem_filterByView h3).2.1 hv
  · intro hv t ht
    rw [getFilteredTransactions, mem_sortByCreatedAtDesc] at ht
    have h2 := (mem_categoryFilter.mp ht).1
    have h3 := (mem_searchFilter.mp h2).1
    exact (mem_filterByView h3).2.2 hv
  · rintro (hv | hv) <;> rw [getFilteredTransactions,
      filterByView_eq_self (by simp [hv])]

/-- C2 witness: a concrete `expenses`-view state whose derived list does
contain an expense transaction, obtained through the claim theorem. -/
theorem C2_witness :
    ({ baseState [sampleTx 1 TType.expense "Mercado" "Alimentação",
        sampleTx 2 TType.income "Salário" "Trabalho"] with
      currentView := ViewMode.expenses } : DashState).currentView =
        ViewMode.expenses ∧
    (sampleTx 1 TType.expense "Mercado" "Alimentação").type = TType.expense :=
  ⟨rfl,
    (C2_view_filtering
        { baseState [sampleTx 1 TType.expense "Mercado" "Alimentação",
            sampleTx 2 TType.income "Salário" "Trabalho"] with
          currentView := ViewMode.expenses }).1 rfl
      (sampleTx 1 TType.expense "Mercado" "Alimentação") (by decide)⟩

/-- C3: the search step keeps exactly the transactions whose description
or category contains the term as a case-insensitive substring; the empty
term filters nothing; and the term "merc" matches a transaction with
description "Mercado". -/
theorem C3_search_filtering (term : String) (ts : List Transaction) :
    (∀ t, t ∈ searchFilter term ts ↔
      t ∈ ts ∧
        (jsIncludes (jsToLower t.description) (jsToLower term) = true ∨
          jsIncludes (jsToLower t.category) (jsToLower term) = true)) ∧
    searchFilter "" ts = ts ∧
    matchesSearch "merc"
      (sampleTx 1 TType.expense "Mercado" "Alimentação") = true := by
  refine ⟨?_, searchFilter_empty ts, by decide⟩
  intro t
  rw [mem_searchFilter]
  simp [matchesSearch]

/-- C4: the derived list is sorted by creation timestamp descending
(whenever a transaction precedes another, its timestamp is ≥ the other's,
so a strictly newer transaction always comes first), and the transactions
of any fixed timestamp appear in the derived list in the same relative
order as in the stored input list (stable tie-break). -/
theorem C4_sorted_descending_stable (s : DashState) :
    (getFilteredTransactions s).Pairwise
      (fun a b => b.createdAt ≤ a.createdAt) ∧
    ∀ v : Nat,
      ((getFilteredTransactions s).filter
        fun t => decide (t.createdAt = v)).Sublist s.transactions := by
  constructor
  · exact pairwise_sortByCreatedAtDesc _
  · intro v
    rw [getFilteredTransactions, filter_sortByCreatedAtDesc]
    exact ((List.filter_sublist _).trans
      (categoryFilter_sublist _ _)).trans
      ((searchFilter_sublist _ _).trans (filterByView_sublist _ _))

/-- C5: on the `dashboard` view the displayed list is the 5-element
truncation of the sorted+filtered result (length `min n 5`); on every
other view the whole filtered result is displayed. -/
theorem C5_dashboard_truncates_to_five (s : DashState) :
    (s.currentView = ViewMode.dashboard →
      (displayedTransactions s).length =
        min (getFilteredTransactions s).length 5) ∧
    (s.currentView ≠ ViewMode.dashboard →
      displayedTransactions s = getFilteredTransactions s) := by
  constructor
  · intro h
    simp [displayedTransactions, h, List.length_take, Nat.min_comm]
  · intro h
    simp [displayedTransactions, h]

/-- C5 witness: a dashboard state with 8 transactions matching the current
filters displays exactly 5. -/
theorem C5_witness :
    (baseState ((List.range 8).map fun i =>
      sampleTx i TType.expense "d" "c")).currentView = ViewMode.dashboard ∧
    (displayedTransactions (baseState ((List.range 8).map fun i =>
      sampleTx i TType.expense "d" "c"))).length = 5 := by
  refine ⟨rfl, ?_⟩
  rw [(C5_dashboard_truncates_to_five (baseState ((List.range 8).map fun i =>
    sampleTx i TType.expense "d" "c"))).1 rfl]
  decide

/-- C6: `getCategories` returns exactly the distinct category values of
the loaded list — no duplicates, each listed category occurs in the list
and conversely — sorted ascending by the lexicographic string order. -/
theorem C6_categories_distinct_sorted (ts : List Transaction) :
    (getCategories ts).Nodup ∧
    (∀ c, c ∈ getCategories ts ↔ c ∈ ts.map fun t => t.category) ∧
    (getCategories ts).Pairwise strLe := by
  refine ⟨?_, ?_, List.sorted_insertionSort strLe _⟩
  · exact (List.perm_insertionSort strLe _).nodup_iff.mpr
      (jsSetDedup_nodup _)
  · intro c
    exact (List.perm_insertionSort strLe _).mem_iff.trans mem_jsSetDedup

/-- C7: when a confirmed delete call fails, the whole component state —
in particular the transaction list and the summary — is exactly as before
the attempt and the error notification is produced; and whenever the
stored list changes at all, the delete succeeded and the new list is the
one produced by the refetch (no optimistic local removal). -/
theorem C7_delete_failure_atomicity (s : DashState) (refetch : FetchResult) :
    ((handleRemoveTransaction s true DeleteResult.err refetch).1 = s ∧
      (handleRemoveTransaction s true DeleteResult.err refetch).2.alerts =
        ["Erro ao excluir transação."]) ∧
    (∀ dr : DeleteResult,
      (handleRemoveTransaction s true dr refetch).1.transactions ≠
          s.transactions →
        dr = DeleteResult.ok ∧
          (handleRemoveTransaction s true dr refetch).1.transactions =
            (loadData s refetch).1.transactions) := by
  refine ⟨⟨rfl, rfl⟩, ?_⟩
  intro dr h
  cases dr with
  | ok => exact ⟨rfl, rfl⟩
  | err => exact absurd rfl h

/-- C7 witness: a concrete confirmed delete whose refetch succeeds does
change the list, and the new list is the refetched one. -/
theorem C7_witness :
    (handleRemoveTransaction (baseState []) true DeleteResult.ok
        (FetchResult.ok [sampleTx 1 TType.expense "Mercado" "Alimentação"]
          { totalIncome := 0, totalExpenses := 50, balance := -50,
            categorySummary := [("Alimentação", 50)],
            transactionCount := 1 })).1.transactions ≠
      (baseState []).transactions ∧
    (handleRemoveTransaction (baseState []) true DeleteResult.ok
        (FetchResult.ok [sampleTx 1 TType.expense "Mercado" "Alimentação"]
          { totalIncome := 0, totalExpenses := 50, balance := -50,
            categorySummary := [("Alimentação", 50)],
            transactionCount := 1 })).1.transactions =
      (loadData (baseState [])
        (FetchResult.ok [sampleTx 1 TType.expense "Mercado" "Alimentação"]
          { totalIncome := 0, totalExpenses := 50, balance := -50,
            categorySummary := [("Alimentação", 50)],
            transactionCount := 1 })).1.transactions :=
  ⟨by decide,
    ((C7_delete_failure_atomicity (baseState [])
        (FetchResult.ok [sampleTx 1 TType.expense "Mercado" "Alimentação"]
          { totalIncome := 0, totalExpenses := 50, balance := -50,
            categorySummary := [("Alimentação", 50)],
            transactionCount := 1 })).2 DeleteResult.ok (by decide)).2⟩

/-- C8: a failed initial load is swallowed into the empty-data display:
the list is cleared, the summary nulled, one console diagnostic emitted,
no alert shown, and the loading flag cleared. -/
theorem C8_load_failure_swallowed (s : DashState) :
    (loadData s FetchResult.err).1.transactions = [] ∧
    (loadData s FetchResult.err).1.summary = none ∧
    (loadData s FetchResult.err).1.loading = false ∧
    (loadData s FetchResult.err).2.consoleErrors = 1 ∧
    (loadData s FetchResult.err).2.alerts = [] :=
  ⟨rfl, rfl, rfl, rfl, rfl⟩

/-- C9: the claim as stated is FALSE.  A page URL carrying the `userId`
parameter with the empty value (`?userId=`) has the parameter present, yet
the resolved identifier is the fallback, not the parameter value. -/
theorem C9_counterexample : getUserIdFromUrl (some "") ≠ "" := by
  decide

/-- C9 (amended): the resolved identifier equals the `userId` parameter
when present and non-empty, and is the fallback `default_user` when the
parameter is absent or empty; hence the resolved identifier is never
empty, the access-denied branch (rendered, once loading has finished,
exactly when the identifier is empty) is unreachable, and a loaded page
always renders the dashboard. -/
theorem C9_amended_identifier_gate :
    (∀ v : String, v ≠ "" → getUserIdFromUrl (some v) = v) ∧
    getUserIdFromUrl none = "default_user" ∧
    getUserIdFromUrl (some "") = "default_user" ∧
    (∀ q : Option String, getUserIdFromUrl q ≠ "") ∧
    (∀ uid : String, uid = "" →
      renderedScreen false uid = Screen.accessDenied) ∧
    (∀ q : Option String,
      renderedScreen false (getUserIdFromUrl q) = Screen.dashboardScreen) := by
  have hne : ∀ q : Option String, getUserIdFromUrl q ≠ "" := by
    intro q
    cases q with
    | none => decide
    | some v =>
        by_cases hv : v = "" <;> simp [getUserIdFromUrl, hv]
  refine ⟨?_, rfl, rfl, hne, ?_, ?_⟩
  · intro v hv
    simp [getUserIdFromUrl, hv]
  · intro uid h
    simp [renderedScreen, h]
  · intro q
    simp [renderedScreen, hne q]

/-- C9 witness: a non-empty parameter resolves to itself, and an empty
identifier would render the access-denied screen. -/
theorem C9_witness :
    ("user1" ≠ "" ∧ getUserIdFromUrl (some "user1") = "user1") ∧
    renderedScreen false "" = Screen.accessDenied :=
  ⟨⟨by decide, C9_amended_identifier_gate.1 "user1" (by decide)⟩,
    C9_amended_identifier_gate.2.2.2.2.1 "" rfl⟩

/-- C10: on the `dashboard` view the filter controls are not rendered, yet
the displayed (truncated-to-5) list is drawn from the search- and
category-filtered result: it equals the 5-element truncation of the
sorted, search- and category-filtered list, and every displayed
transaction matches the search term and the selected category. -/
theorem C10_dashboard_filters_still_apply (s : DashState)
    (hv : s.currentView = ViewMode.dashboard) :
    filtersRendered s = false ∧
    displayedTransactions s =
      (sortByCreatedAtDesc (categoryFilter s.selectedCategory
        (searchFilter s.searchTerm s.transactions))).take 5 ∧
    ∀ t ∈ displayedTransactions s,
      matchesSearch s.searchTerm t = true ∧
        (s.selectedCategory ≠ "" → t.category = s.selectedCategory) := by
  have hview : filterByView s.currentView s.transactions = s.transactions :=
    filterByView_eq_self (Or.inl hv) s.transactions
  have hdisp : displayedTransactions s =
      (sortByCreatedAtDesc (categoryFilter s.selectedCategory
        (searchFilter s.searchTerm s.transactions))).take 5 := by
    rw [displayedTransactions, getFilteredTransactions, hview]
    simp [hv]
  refine ⟨by simp [filtersRendered, hv], hdisp, ?_⟩
  intro t ht
  rw [hdisp] at ht
  have h1 := List.mem_of_mem_take ht
  rw [mem_sortByCreatedAtDesc] at h1
  have h2 := mem_categoryFilter.mp h1
  have h3 := mem_searchFilter.mp h2.1
  refine ⟨h3.2, fun hsel => ?_⟩
  rcases h2.2 with h | h
  · exact absurd h hsel
  · exact h

/-- C10 witness: on a concrete dashboard state with the search term "sal"
the controls are hidden and a displayed transaction matches the term. -/
theorem C10_witness :
    ({ baseState [sampleTx 1 TType.expense "Mercado" "Alimentação",
        sampleTx 2 TType.income "Salário" "Trabalho"] with
      searchTerm := "sal" } : DashState).currentView = ViewMode.dashboard ∧
    filtersRendered
      { baseState [sampleTx 1 TType.expense "Mercado" "Alimentação",
          sampleTx 2 TType.income "Salário" "Trabalho"] with
        searchTerm := "sal" } = false ∧
    matchesSearch "sal" (sampleTx 2 TType.income "Salário" "Trabalho") = true :=
  ⟨rfl,
    (C10_dashboard_filters_still_apply
      { baseState [sampleTx 1 TType.expense "Mercado" "Alimentação",
          sampleTx 2 TType.income "Salário" "Trabalho"] with
        searchTerm := "sal" } rfl).1,
    ((C10_dashboard_filters_still_apply
        { baseState [sampleTx 1 TType.expense "Mercado" "Alimentação",
            sampleTx 2 TType.income "Salário" "Trabalho"] with
          searchTerm := "sal" } rfl).2.2
      (sampleTx 2 TType.income "Salário" "Trabalho") (by decide)).1⟩

end RelatorioFinanceiro
